import Mathlib

/-!
Shallow embedding of the query-to-context matching engine of the
openfga-modeling-mcp server: the PromptMatcher class of
src/prompt-matcher.ts (rule table, findBestMatch, getAllRules,
loadPromptContent, getContextForQuery) and the resource read handler of
src/index.ts, together with proofs of the specification properties.
Strings are modelled by Lean String values; the character case mapping of
JavaScript toLowerCase is modelled by the simple mapping Char.toLower.
-/

/-- Tests whether the first list is a leading segment of the second,
character by character: the anchored step of the substring scan behind
JavaScript String.prototype.includes. -/
def leadsWith : List Char → List Char → Bool
  | [], _ => true
  | _ :: _, [] => false
  | p :: ps, c :: cs => p == c && leadsWith ps cs

/-- Tests whether pat occurs as a contiguous segment of the second list. -/
def occursIn (pat : List Char) : List Char → Bool
  | [] => pat.isEmpty
  | c :: cs => leadsWith pat (c :: cs) || occursIn pat cs

/-- Models JavaScript s.includes(pat): pat occurs contiguously in s. -/
def strContains (s pat : String) : Bool := occursIn pat.data s.data

/-- Models JavaScript s.startsWith(pat). -/
def strStarts (s pat : String) : Bool := leadsWith pat.data s.data

/-- Models JavaScript String.prototype.toLowerCase through the simple
character case mapping. -/
def lowerStr (s : String) : String := ⟨s.data.map Char.toLower⟩

/-- Whitespace characters considered by the whitespace-only query claim. -/
def isWS (c : Char) : Bool := c == ' ' || c == '\t' || c == '\n' || c == '\r'

/-- Record type of the PromptRule interface of src/prompt-matcher.ts. -/
structure PromptRule where
  patterns : List String
  promptFile : String
  description : String
deriving Repr, DecidableEq

/-- The single configured rule of the PromptMatcher rules field, with its
pattern list in declaration order. -/
def rule0 : PromptRule :=
  { patterns := [
      "authorization model", "auth model", "access control", "rbac", "abac",
      "permission", "role based", "attribute based", "authentication",
      "auth", "security model", "openfga", "openfga model",
      "openfga authorization", "openfga auth", "openfga dsl",
      "openfga schema", "openfga relations", "openfga types", "zanzibar",
      "relationship based access control", "rebac",
      "fine grained access control", "fga", "tuple", "relationship tuple",
      "authorization tuple", "user relation object", "permission check",
      "can user", "access check"],
    promptFile := "authorization-model.md",
    description := "Author authorization models with OpenFGA" }

/-- The configured rule set of the PromptMatcher instance. -/
def rules : List PromptRule := [rule0]

/-- Inner loop of findBestMatch: some pattern of the rule, lower-cased, is
contained in the lower-cased query. -/
def ruleMatches (lowercaseQuery : String) (rule : PromptRule) : Bool :=
  rule.patterns.any fun pattern => strContains lowercaseQuery (lowerStr pattern)

/-- PromptMatcher.findBestMatch over an explicit rule list: lower-case the
query, then return the first rule in declaration order having a matching
pattern, or none. -/
def findBestMatchIn (rs : List PromptRule) (query : String) : Option PromptRule :=
  rs.find? (ruleMatches (lowerStr query))

/-- PromptMatcher.findBestMatch over the configured rule set. -/
def findBestMatch (query : String) : Option PromptRule := findBestMatchIn rules query

/-- Environment model of the file system seen by the engine: a working
directory and, for every path, either the file content or the text of the
I/O error raised when reading it (as in Node, that text names the path
attempted). -/
structure FS where
  cwd : String
  read : String → Except String String

/-- Models path.join of two segments. The engine performs no normalization
of its own; the joined path is handed to the file system as is. -/
def pathJoin (a b : String) : String := a ++ "/" ++ b

/-- The path attempted by loadPromptContent: cwd joined with the prompts
directory, joined with the document reference. -/
def resolvedPath (fs : FS) (promptFile : String) : String :=
  pathJoin (pathJoin fs.cwd "prompts") promptFile

/-- PromptMatcher.loadPromptContent: read cwd/prompts/promptFile and wrap a
read failure in the message thrown by the source, which interpolates the
file reference and the stringified underlying error. -/
def loadPromptContent (fs : FS) (promptFile : String) : Except String String :=
  match fs.read (resolvedPath fs promptFile) with
  | .ok content => .ok content
  | .error err =>
    .error ("Failed to load prompt file " ++ promptFile ++ ": Error: " ++ err)

/-- Result record of PromptMatcher.getContextForQuery. -/
structure ResolvedContext where
  rule : Option PromptRule
  content : Option String
  matchFound : Bool
deriving Repr, DecidableEq

/-- PromptMatcher.getContextForQuery over an explicit rule list: find the
rule; a missing match is the ok no-match record, a load failure is rethrown
with the wrapping message of the source. -/
def getContextForQueryIn (fs : FS) (rs : List PromptRule) (query : String) :
    Except String ResolvedContext :=
  match findBestMatchIn rs query with
  | none => .ok { rule := none, content := none, matchFound := false }
  | some rule =>
    match loadPromptContent fs rule.promptFile with
    | .ok content => .ok { rule := some rule, content := some content, matchFound := true }
    | .error err => .error ("Error loading context: Error: " ++ err)

/-- PromptMatcher.getContextForQuery over the configured rule set. -/
def getContextForQuery (fs : FS) (query : String) : Except String ResolvedContext :=
  getContextForQueryIn fs rules query

/-- Models JavaScript s.replace(pat, repl) with a string pattern: only the
first occurrence is replaced. -/
def replaceFirstAux (pat repl : List Char) : List Char → List Char
  | [] => []
  | c :: cs =>
    if leadsWith pat (c :: cs) then repl ++ (c :: cs).drop pat.length
    else c :: replaceFirstAux pat repl cs

/-- String wrapper of replaceFirstAux. -/
def replaceFirstStr (s pat repl : String) : String :=
  ⟨replaceFirstAux pat.data repl.data s.data⟩

/-- Resource read handler of src/index.ts (setupResourceHandlers): check the
uri scheme, strip the prompt scheme from the uri, and serve
loadPromptContent on the remaining suffix; the value modelled is the text
field of the returned contents, or the thrown message. -/
def handleReadResource (fs : FS) (uri : String) : Except String String :=
  if strStarts uri "prompt://" then
    match loadPromptContent fs (replaceFirstStr uri "prompt://" "") with
    | .ok content => .ok content
    | .error err => .error ("Failed to read resource " ++ uri ++ ": Error: " ++ err)
  else .error ("Unsupported URI scheme: " ++ uri)

/-- Heap model of the JavaScript arrays involved in getAllRules: arrays are
numbered cells holding rule lists, the engine field this.rules lives in cell
engineId, and nextId bounds the allocated cells. -/
structure ArrayStore where
  arrays : Nat → List PromptRule
  engineId : Nat
  nextId : Nat

/-- The engine rule list: contents of the cell holding this.rules. -/
def storeRules (s : ArrayStore) : List PromptRule := s.arrays s.engineId

/-- PromptMatcher.getAllRules: the spread copy allocates a fresh array cell
holding the same elements in the same order and returns that cell. -/
def getAllRulesStore (s : ArrayStore) : ArrayStore × Nat :=
  ({ arrays := fun j => if j = s.nextId then storeRules s else s.arrays j,
     engineId := s.engineId,
     nextId := s.nextId + 1 }, s.nextId)

/-- One caller-side mutation of an array cell: element assignment, push,
pop or splice each rewrite the contents of the mutated cell only. -/
def writeArray (s : ArrayStore) (i : Nat) (v : List PromptRule) : ArrayStore :=
  { s with arrays := fun j => if j = i then v else s.arrays j }

/-- State visible to getContextForQuery: the engine rule list and the
document store. The source method only reads both (its sole side effect is
diagnostic logging), so its step returns the state unchanged. -/
structure EngineState where
  fs : FS
  rules : List PromptRule

/-- One call of getContextForQuery as a state transition: the result paired
with the state after the call. -/
def getContextForQueryStep (st : EngineState) (query : String) :
    Except String ResolvedContext × EngineState :=
  (getContextForQueryIn st.fs st.rules query, st)

/-- Two rules that are the same rule up to the order of their pattern
list. -/
def RuleEquiv (r r' : PromptRule) : Prop :=
  r.patterns.Perm r'.patterns ∧ r.promptFile = r'.promptFile ∧
    r.description = r'.description

/-- Document store fixture where the configured document exists. -/
def fsDocs : FS :=
  { cwd := "/srv/app",
    read := fun p =>
      if p = "/srv/app/prompts/authorization-model.md" then
        .ok "AUTHORIZATION MODEL GUIDE"
      else .error ("ENOENT: no such file or directory, open " ++ p) }

/-- Document store fixture where every read fails and the error text names
the path attempted. -/
def fsMissing : FS :=
  { cwd := "/srv/app",
    read := fun p => .error ("ENOENT: no such file or directory, open " ++ p) }

/-- Document store fixture holding a file outside the prompts directory,
for the path traversal witness. -/
def fsEscape : FS :=
  { cwd := "/srv/app",
    read := fun p =>
      if p = "/srv/app/prompts/../../etc/hosts" then .ok "127.0.0.1 localhost"
      else .error ("ENOENT: no such file or directory, open " ++ p) }

/-- rule0 with its first two patterns swapped, for the pattern order
witness. -/
def rule0swap : PromptRule :=
  { patterns := "auth model" :: "authorization model" :: rule0.patterns.drop 2,
    promptFile := rule0.promptFile,
    description := rule0.description }

/-- Array store fixture: one allocated cell holding the configured rules. -/
def sW : ArrayStore := { arrays := fun _ => rules, engineId := 0, nextId := 1 }

/-! ### String infrastructure lemmas -/

theorem data_append (a b : String) : (a ++ b).data = a.data ++ b.data := by
  cases a; cases b; rfl

theorem leadsWith_iff : ∀ (pat l : List Char),
    leadsWith pat l = true ↔ ∃ t, l = pat ++ t
  | [], l => by simp [leadsWith]
  | p :: ps, [] => by simp [leadsWith]
  | p :: ps, c :: cs => by
    simp only [leadsWith, Bool.and_eq_true, beq_iff_eq, leadsWith_iff ps cs,
      List.cons_append]
    constructor
    · rintro ⟨hpc, t, ht⟩
      exact ⟨t, by rw [hpc, ht]⟩
    · rintro ⟨t, ht⟩
      obtain ⟨h1, h2⟩ := List.cons.inj ht
      exact ⟨h1.symm, t, h2⟩

theorem leadsWith_append_self (pat rest : List Char) :
    leadsWith pat (pat ++ rest) = true := by
  induction pat with
  | nil => rfl
  | cons p ps ih => simp [leadsWith, ih]

theorem occursIn_iff : ∀ (pat l : List Char),
    occursIn pat l = true ↔ ∃ s t, l = s ++ pat ++ t
  | pat, [] => by
    constructor
    · intro h
      have : pat = [] := by
        simpa [occursIn, List.isEmpty_iff] using h
      exact ⟨[], [], by simp [this]⟩
    · rintro ⟨s, t, hst⟩
      have h1 := List.append_eq_nil.mp hst.symm
      have h2 := List.append_eq_nil.mp h1.1
      simp [occursIn, h2.2]
  | pat, c :: cs => by
    simp only [occursIn, Bool.or_eq_true, leadsWith_iff, occursIn_iff pat cs]
    constructor
    · rintro (⟨t, ht⟩ | ⟨s, t, hst⟩)
      · exact ⟨[], t, by simp [ht]⟩
      · exact ⟨c :: s, t, by simp [hst]⟩
    · rintro ⟨s, t, hst⟩
      cases s with
      | nil =>
        left
        exact ⟨t, by simpa using hst⟩
      | cons s0 ss =>
        right
        obtain ⟨-, h2⟩ := List.cons.inj (by simpa [List.cons_append] using hst)
        exact ⟨ss, t, by simpa [List.append_assoc] using h2⟩

theorem mem_of_occursIn (pat l : List Char) (h : occursIn pat l = true) :
    ∀ c ∈ pat, c ∈ l := by
  obtain ⟨s, t, hst⟩ := (occursIn_iff pat l).mp h
  intro c hc
  subst hst
  simp [hc]

theorem toLower_of_isWS (c : Char) (h : isWS c = true) : Char.toLower c = c := by
  have : c = ' ' ∨ c = '\t' ∨ c = '\n' ∨ c = '\r' := by
    simpa [isWS, Bool.or_eq_true, beq_iff_eq, or_assoc] using h
  rcases this with h | h | h | h <;> subst h <;> decide

/-! ### Claim C1: earliest matching rule wins, case-insensitively -/

/-- Claim C1: for every query Q and every pattern of a rule Rx, where Rx is
the earliest rule in declaration order having some pattern that is a
case-insensitive substring of Q, findBestMatch returns Rx, regardless of the
casing of Q (any recasing of Q with the same lower-cased form gives the same
result) or of the patterns (matching lower-cases both sides). -/
theorem findBestMatch_first_rule_wins
    (pre post : List PromptRule) (Rx : PromptRule) (Q : String)
    (hpre : ∀ r ∈ pre, ruleMatches (lowerStr Q) r = false)
    (hRx : ruleMatches (lowerStr Q) Rx = true)
    (Q' : String) (hQ' : lowerStr Q' = lowerStr Q) :
    findBestMatchIn (pre ++ Rx :: post) Q' = some Rx := by
  unfold findBestMatchIn
  rw [hQ']
  induction pre with
  | nil => rw [List.nil_append, List.find?_cons_of_pos _ hRx]
  | cons a pre ih =>
    have ha : ruleMatches (lowerStr Q) a = false := hpre a (by simp)
    rw [List.cons_append, List.find?_cons_of_neg _ (by simp [ha])]
    exact ih fun r hr => hpre r (by simp [hr])

/-- Witness for C1 at a concrete recased query hitting the zanzibar
pattern of the configured rule. -/
theorem findBestMatch_first_rule_wins_witness :
    findBestMatchIn ([] ++ rule0 :: []) "EXPLAIN ZANZIBAR" = some rule0 :=
  findBestMatch_first_rule_wins [] [] rule0 "Explain Zanzibar"
    (by simp) (by decide) "EXPLAIN ZANZIBAR" (by decide)

/-! ### Claim C2: no pattern matches means null and ok no-match -/

/-- Helper shared by the no-match claims: when every rule fails to match
the lower-cased query, the scan returns none and the composed lookup
returns the ok no-match record. -/
theorem noMatch_of_all_rules_false
    (rs : List PromptRule) (fs : FS) (Q : String)
    (h : ∀ r ∈ rs, ruleMatches (lowerStr Q) r = false) :
    findBestMatchIn rs Q = none ∧
    getContextForQueryIn fs rs Q =
      .ok { rule := none, content := none, matchFound := false } := by
  have hnone : findBestMatchIn rs Q = none := by
    unfold findBestMatchIn
    exact List.find?_eq_none.mpr fun r hr => by simp [h r hr]
  exact ⟨hnone, by unfold getContextForQueryIn; rw [hnone]⟩

/-- Claim C2: for every query Q, if no pattern of any rule in the rule set
is a case-insensitive substring of Q, then findBestMatch returns none and
getContextForQuery returns the ok record with null rule, null content and
matchFound false, raising no error. -/
theorem findBestMatch_none_of_no_pattern
    (rs : List PromptRule) (fs : FS) (Q : String)
    (h : ∀ r ∈ rs, ruleMatches (lowerStr Q) r = false) :
    findBestMatchIn rs Q = none ∧
    getContextForQueryIn fs rs Q =
      .ok { rule := none, content := none, matchFound := false } :=
  noMatch_of_all_rules_false rs fs Q h

/-- Witness for C2 at a concrete unrelated query against the configured
rule set. -/
theorem findBestMatch_none_of_no_pattern_witness :
    findBestMatchIn rules "What is the weather today" = none ∧
    getContextForQueryIn fsDocs rules "What is the weather today" =
      .ok { rule := none, content := none, matchFound := false } :=
  findBestMatch_none_of_no_pattern rules fsDocs "What is the weather today"
    (by decide)

/-! ### Claim C9: shape invariant of returned contexts -/

/-- Claim C9: whenever getContextForQuery returns a value rather than an
error, matchFound is true exactly when the rule is non-null and exactly when
the content is non-null. -/
theorem getContextForQuery_shape
    (fs : FS) (rs : List PromptRule) (Q : String) (ctx : ResolvedContext)
    (h : getContextForQueryIn fs rs Q = .ok ctx) :
    (ctx.matchFound = true ↔ ctx.rule.isSome = true) ∧
    (ctx.matchFound = true ↔ ctx.content.isSome = true) := by
  unfold getContextForQueryIn at h
  cases hf : findBestMatchIn rs Q with
  | none =>
    rw [hf] at h
    have : ctx = { rule := none, content := none, matchFound := false } := by
      simpa using h.symm
    subst this
    simp
  | some rule =>
    rw [hf] at h
    dsimp only at h
    cases hl : loadPromptContent fs rule.promptFile with
    | ok content =>
      rw [hl] at h
      have : ctx =
          { rule := some rule, content := some content, matchFound := true } := by
        simpa using h.symm
      subst this
      simp
    | error err =>
      rw [hl] at h
      simp at h

/-- Witness for C9 at a concrete no-match context of the configured rule
set. -/
theorem getContextForQuery_shape_witness :
    ((({ rule := none, content := none, matchFound := false } :
        ResolvedContext)).matchFound = true ↔
      (({ rule := none, content := none, matchFound := false } :
        ResolvedContext)).rule.isSome = true) ∧
    ((({ rule := none, content := none, matchFound := false } :
        ResolvedContext)).matchFound = true ↔
      (({ rule := none, content := none, matchFound := false } :
        ResolvedContext)).content.isSome = true) :=
  getContextForQuery_shape fsDocs rules "What is love"
    { rule := none, content := none, matchFound := false } (by rfl)

/-! ### Claim C7: empty and whitespace-only queries degrade to no match -/

/-- Every pattern of the configured rule contains, after lower-casing, a
character that is not whitespace. -/
theorem rule0_patterns_have_nonws :
    rule0.patterns.all (fun pat => (lowerStr pat).data.any fun c => !isWS c) =
      true := by decide

/-- Claim C7: for the empty query and for every whitespace-only query,
findBestMatch over the configured rule set returns none, and the composed
lookup returns the ok no-match record rather than an error. -/
theorem findBestMatch_whitespace_no_match
    (Q : String) (hQ : ∀ c ∈ Q.data, isWS c = true) (fs : FS) :
    findBestMatchIn rules Q = none ∧
    getContextForQueryIn fs rules Q =
      .ok { rule := none, content := none, matchFound := false } := by
  apply noMatch_of_all_rules_false
  intro r hr
  have hr0 : r = rule0 := by simpa [rules] using hr
  subst hr0
  unfold ruleMatches
  rw [List.any_eq_false]
  intro pat hpat hcon
  have hall := rule0_patterns_have_nonws
  rw [List.all_eq_true] at hall
  have hnw := hall pat hpat
  rw [List.any_eq_true] at hnw
  obtain ⟨c, hcmem, hc⟩ := hnw
  unfold strContains at hcon
  have hcQ : c ∈ (lowerStr Q).data := mem_of_occursIn _ _ hcon c hcmem
  obtain ⟨c0, hc0mem, hc0⟩ := List.mem_map.mp hcQ
  have hws0 : isWS c0 = true := hQ c0 hc0mem
  rw [toLower_of_isWS c0 hws0] at hc0
  subst hc0
  simp [hws0] at hc

/-- Witness for C7 at the empty query. -/
theorem findBestMatch_whitespace_no_match_witness :
    findBestMatchIn rules "" = none ∧
    getContextForQueryIn fsDocs rules "" =
      .ok { rule := none, content := none, matchFound := false } :=
  findBestMatch_whitespace_no_match "" (by decide) fsDocs

/-! ### Claim C3: missing document surfaces as a distinguished error -/

/-- Claim C3: when the resolved file of a document reference is missing or
unreadable, loadPromptContent fails with an error whose message carries the
reference, the underlying I/O error text and, through that text, the path
attempted; and when the matched rule carries that reference, the failure
propagates out of getContextForQuery as an error, never as an ok result. -/
theorem loadPromptContent_document_not_found
    (fs : FS) (rs : List PromptRule) (Rx : PromptRule) (ref err Q : String)
    (hread : fs.read (resolvedPath fs ref) = .error err) :
    ∃ msg : String,
      loadPromptContent fs ref = .error msg ∧
      strContains msg ref = true ∧
      strContains msg err = true ∧
      (strContains err (resolvedPath fs ref) = true →
        strContains msg (resolvedPath fs ref) = true) ∧
      (findBestMatchIn rs Q = some Rx → Rx.promptFile = ref →
        getContextForQueryIn fs rs Q =
          .error ("Error loading context: Error: " ++ msg) ∧
        ∀ ctx : ResolvedContext, getContextForQueryIn fs rs Q ≠ .ok ctx) := by
  refine ⟨"Failed to load prompt file " ++ ref ++ ": Error: " ++ err,
    ?_, ?_, ?_, ?_, ?_⟩
  · unfold loadPromptContent
    rw [hread]
  · unfold strContains
    refine (occursIn_iff _ _).mpr
      ⟨("Failed to load prompt file ").data,
        (": Error: ").data ++ err.data, ?_⟩
    simp [data_append, List.append_assoc]
  · unfold strContains
    refine (occursIn_iff _ _).mpr
      ⟨("Failed to load prompt file ").data ++ ref.data ++ (": Error: ").data,
        [], ?_⟩
    simp [data_append, List.append_assoc]
  · intro hp
    unfold strContains at hp ⊢
    obtain ⟨u, v, huv⟩ := (occursIn_iff _ _).mp hp
    refine (occursIn_iff _ _).mpr
      ⟨("Failed to load prompt file ").data ++ ref.data ++
          (": Error: ").data ++ u, v, ?_⟩
    simp [data_append, huv, List.append_assoc]
  · intro hfind hfile
    have hload : loadPromptContent fs Rx.promptFile =
        .error ("Failed to load prompt file " ++ ref ++ ": Error: " ++ err) := by
      rw [hfile]
      unfold loadPromptContent
      rw [hread]
    constructor
    · unfold getContextForQueryIn
      rw [hfind]
      dsimp only
      rw [hload]
    · intro ctx hctx
      unfold getContextForQueryIn at hctx
      rw [hfind] at hctx
      dsimp only at hctx
      rw [hload] at hctx
      simp at hctx

/-- Witness for C3 at the configured document reference against a store
where every read fails with a path-carrying error. -/
theorem loadPromptContent_document_not_found_witness :
    ∃ msg : String,
      loadPromptContent fsMissing "authorization-model.md" = .error msg ∧
      strContains msg "authorization-model.md" = true ∧
      strContains msg
        "ENOENT: no such file or directory, open /srv/app/prompts/authorization-model.md" =
        true ∧
      (strContains
          "ENOENT: no such file or directory, open /srv/app/prompts/authorization-model.md"
          (resolvedPath fsMissing "authorization-model.md") = true →
        strContains msg (resolvedPath fsMissing "authorization-model.md") = true) ∧
      (findBestMatchIn rules "openfga" = some rule0 →
        rule0.promptFile = "authorization-model.md" →
        getContextForQueryIn fsMissing rules "openfga" =
          .error ("Error loading context: Error: " ++ msg) ∧
        ∀ ctx : ResolvedContext,
          getContextForQueryIn fsMissing rules "openfga" ≠ .ok ctx) :=
  loadPromptContent_document_not_found fsMissing rules rule0
    "authorization-model.md"
    "ENOENT: no such file or directory, open /srv/app/prompts/authorization-model.md"
    "openfga" rfl

/-! ### Claim C4: the documented scenario query -/

/-- Claim C4: the query about creating an OpenFGA authorization model,
against the configured rule set, yields matchFound true, the rule whose
description is the documented one, and content equal to the full text the
document store holds for authorization-model.md. -/
theorem getContextForQuery_openfga_model_scenario
    (fs : FS) (doc : String)
    (hread : fs.read (resolvedPath fs "authorization-model.md") = .ok doc) :
    getContextForQueryIn fs rules
        "How do I create an OpenFGA authorization model?" =
      .ok { rule := some rule0, content := some doc, matchFound := true } ∧
    rule0.description = "Author authorization models with OpenFGA" := by
  have hfind : findBestMatchIn rules
      "How do I create an OpenFGA authorization model?" = some rule0 := by
    decide
  have hload : loadPromptContent fs rule0.promptFile = .ok doc := by
    unfold loadPromptContent
    have hpf : rule0.promptFile = "authorization-model.md" := rfl
    rw [hpf, hread]
  refine ⟨?_, rfl⟩
  unfold getContextForQueryIn
  rw [hfind]
  dsimp only
  rw [hload]

/-- Witness for C4 against the fixture store holding the document. -/
theorem getContextForQuery_openfga_model_scenario_witness :
    getContextForQueryIn fsDocs rules
        "How do I create an OpenFGA authorization model?" =
      .ok { rule := some rule0, content := some "AUTHORIZATION MODEL GUIDE",
            matchFound := true } ∧
    rule0.description = "Author authorization models with OpenFGA" :=
  getContextForQuery_openfga_model_scenario fsDocs
    "AUTHORIZATION MODEL GUIDE" rfl

/-! ### Claim C5: pattern order inside a rule does not matter -/

/-- Any over a list is invariant under permutation of the list. -/
theorem any_perm {α : Type} (p : α → Bool) :
    ∀ {l l' : List α}, l.Perm l' → l.any p = l'.any p := by
  intro l l' h
  induction h with
  | nil => rfl
  | cons a _ ih => simp [List.any_cons, ih]
  | swap a b l =>
    cases hp : p a <;> cases hq : p b <;> simp [List.any_cons, hp, hq]
  | trans _ _ ih1 ih2 => rw [ih1, ih2]

/-- Rules equal up to pattern order match the same queries. -/
theorem ruleMatches_congr (lq : String) (r r' : PromptRule)
    (h : RuleEquiv r r') : ruleMatches lq r = ruleMatches lq r' := by
  unfold ruleMatches
  exact any_perm _ h.1

/-- The scan over two rule lists related pointwise by RuleEquiv either
fails on both or returns corresponding rules. -/
theorem findBestMatchIn_forall₂ (Q : String) :
    ∀ {rs rs' : List PromptRule}, List.Forall₂ RuleEquiv rs rs' →
      (findBestMatchIn rs Q = none ∧ findBestMatchIn rs' Q = none) ∨
      ∃ r r', RuleEquiv r r' ∧ findBestMatchIn rs Q = some r ∧
        findBestMatchIn rs' Q = some r' := by
  intro rs rs' h
  induction h with
  | nil => exact Or.inl ⟨rfl, rfl⟩
  | cons h1 h2 ih =>
    rename_i a b l1 l2
    cases hm : ruleMatches (lowerStr Q) a with
    | true =>
      have hb : ruleMatches (lowerStr Q) b = true := by
        rw [← ruleMatches_congr (lowerStr Q) a b h1]
        exact hm
      right
      exact ⟨a, b, h1,
        by unfold findBestMatchIn; rw [List.find?_cons_of_pos _ hm],
        by unfold findBestMatchIn; rw [List.find?_cons_of_pos _ hb]⟩
    | false =>
      have hb : ruleMatches (lowerStr Q) b = false := by
        rw [← ruleMatches_congr (lowerStr Q) a b h1]
        exact hm
      have e1 : findBestMatchIn (a :: l1) Q = findBestMatchIn l1 Q := by
        unfold findBestMatchIn
        rw [List.find?_cons_of_neg _ (by simp [hm])]
      have e2 : findBestMatchIn (b :: l2) Q = findBestMatchIn l2 Q := by
        unfold findBestMatchIn
        rw [List.find?_cons_of_neg _ (by simp [hb])]
      rw [e1, e2]
      exact ih

/-- Claim C5: permuting the pattern list inside a single rule, leaving rule
order unchanged, does not change the outcome of findBestMatch: either both
scans fail, or each returns the corresponding rule of its list, the same
rule up to internal pattern order, with the same document reference and
description. -/
theorem findBestMatch_pattern_order_irrelevant
    (pre post : List PromptRule) (R R' : PromptRule)
    (hperm : R.patterns.Perm R'.patterns)
    (hfile : R.promptFile = R'.promptFile)
    (hdesc : R.description = R'.description) (Q : String) :
    (findBestMatchIn (pre ++ R :: post) Q = none ∧
      findBestMatchIn (pre ++ R' :: post) Q = none) ∨
    ∃ r r', RuleEquiv r r' ∧
      findBestMatchIn (pre ++ R :: post) Q = some r ∧
      findBestMatchIn (pre ++ R' :: post) Q = some r' := by
  apply findBestMatchIn_forall₂
  have hpre : List.Forall₂ RuleEquiv pre pre :=
    List.forall₂_same.mpr fun x _ => ⟨List.Perm.refl _, rfl, rfl⟩
  have hpost : List.Forall₂ RuleEquiv post post :=
    List.forall₂_same.mpr fun x _ => ⟨List.Perm.refl _, rfl, rfl⟩
  exact List.rel_append hpre (List.Forall₂.cons ⟨hperm, hfile, hdesc⟩ hpost)

/-- Witness for C5: the configured rule against its copy with the first two
patterns swapped. -/
theorem findBestMatch_pattern_order_irrelevant_witness :
    (findBestMatchIn ([] ++ rule0 :: []) "openfga please" = none ∧
      findBestMatchIn ([] ++ rule0swap :: []) "openfga please" = none) ∨
    ∃ r r', RuleEquiv r r' ∧
      findBestMatchIn ([] ++ rule0 :: []) "openfga please" = some r ∧
      findBestMatchIn ([] ++ rule0swap :: []) "openfga please" = some r' :=
  findBestMatch_pattern_order_irrelevant [] [] rule0 rule0swap
    (List.Perm.swap "auth model" "authorization model" (rule0.patterns.drop 2))
    rfl rfl "openfga please"

/-! ### Claim C6: determinism and idempotence of getContextForQuery -/

/-- Claim C6: with the rule set and document store unchanged between the two
calls, calling getContextForQuery twice on the same query returns identical
results, and the state after each call is the initial state: the source
method only reads its state, so the step is deterministic and idempotent in
its observable result. -/
theorem getContextForQuery_deterministic (st : EngineState) (Q : String) :
    (getContextForQueryStep ((getContextForQueryStep st Q).2) Q).1 =
      (getContextForQueryStep st Q).1 ∧
    (getContextForQueryStep ((getContextForQueryStep st Q).2) Q).2 = st :=
  ⟨rfl, rfl⟩

/-! ### Claim C8: getAllRules is a defensive copy -/

/-- Claim C8: getAllRules returns a fresh cell whose contents equal the
engine rule list, with the same length and declaration order; rewriting the
returned cell with any value leaves the engine rule list unchanged, and with
it the results of every subsequent findBestMatch, getContextForQuery and
getAllRules call. -/
theorem getAllRules_defensive_copy
    (s : ArrayStore) (h : s.engineId < s.nextId)
    (v : List PromptRule) (Q : String) (fs : FS) :
    (getAllRulesStore s).1.arrays (getAllRulesStore s).2 = storeRules s ∧
    ((getAllRulesStore s).1.arrays (getAllRulesStore s).2).length =
      (storeRules s).length ∧
    storeRules (writeArray (getAllRulesStore s).1 (getAllRulesStore s).2 v) =
      storeRules s ∧
    findBestMatchIn
        (storeRules
          (writeArray (getAllRulesStore s).1 (getAllRulesStore s).2 v)) Q =
      findBestMatchIn (storeRules s) Q ∧
    getContextForQueryIn fs
        (storeRules
          (writeArray (getAllRulesStore s).1 (getAllRulesStore s).2 v)) Q =
      getContextForQueryIn fs (storeRules s) Q ∧
    (getAllRulesStore
        (writeArray (getAllRulesStore s).1 (getAllRulesStore s).2 v)).1.arrays
      (getAllRulesStore
        (writeArray (getAllRulesStore s).1 (getAllRulesStore s).2 v)).2 =
      storeRules s := by
  have hne : s.engineId ≠ s.nextId := Nat.ne_of_lt h
  have hkey :
      storeRules (writeArray (getAllRulesStore s).1 (getAllRulesStore s).2 v) =
        storeRules s := by
    simp [getAllRulesStore, writeArray, storeRules, hne]
  refine ⟨?_, ?_, hkey, by rw [hkey], by rw [hkey], ?_⟩
  · simp [getAllRulesStore, storeRules]
  · simp [getAllRulesStore, storeRules]
  · simp [getAllRulesStore, writeArray, storeRules, hne]

/-- Witness for C8 at the one-cell fixture store holding the configured
rules. -/
theorem getAllRules_defensive_copy_witness :
    (getAllRulesStore sW).1.arrays (getAllRulesStore sW).2 = storeRules sW ∧
    storeRules (writeArray (getAllRulesStore sW).1 (getAllRulesStore sW).2 []) =
      storeRules sW ∧
    findBestMatchIn
        (storeRules
          (writeArray (getAllRulesStore sW).1 (getAllRulesStore sW).2 []))
        "zanzibar" =
      findBestMatchIn (storeRules sW) "zanzibar" :=
  have h := getAllRules_defensive_copy sW (by decide) [] "zanzibar" fsDocs
  ⟨h.1, h.2.2.1, h.2.2.2.1⟩

/-! ### Claim C10: no path validation in loadPromptContent -/

/-- Stripping a non-empty leading pattern with an empty replacement leaves
exactly the rest of the list. -/
theorem replaceFirstAux_strip (p : Char) (ps repl rest : List Char) :
    replaceFirstAux (p :: ps) repl ((p :: ps) ++ rest) = repl ++ rest := by
  have hl : leadsWith (p :: ps) ((p :: ps) ++ rest) = true :=
    leadsWith_append_self (p :: ps) rest
  have hd : ((p :: ps) ++ rest).drop (p :: ps).length = rest :=
    List.drop_left (p :: ps) rest
  rw [List.cons_append] at hl hd ⊢
  rw [replaceFirstAux, if_pos hl, hd]

/-- String form: stripping a non-empty leading pattern with the empty
replacement leaves the suffix. -/
theorem replaceFirstStr_strip (pat rest : String) (p : Char) (ps : List Char)
    (hpat : pat.data = p :: ps) :
    replaceFirstStr (pat ++ rest) pat "" = rest := by
  unfold replaceFirstStr
  rw [data_append, hpat, show ("" : String).data = [] from rfl,
    replaceFirstAux_strip p ps [] rest.data, List.nil_append]

/-- Claim C10: for every document reference, including ones holding path
separators or parent segments, loadPromptContent attempts to read exactly
the joined path cwd/prompts/reference, with no validation that the resolved
path stays inside the documents directory: a reference that escapes the
directory is read and served. The resource read handler passes the
caller-supplied uri suffix directly as the reference, so this is reachable
from the public interface. -/
theorem loadPromptContent_no_path_validation
    (fs : FS) (ref content : String)
    (hread : fs.read (resolvedPath fs ref) = .ok content) :
    loadPromptContent fs ref = .ok content ∧
    handleReadResource fs ("prompt://" ++ ref) = .ok content := by
  have h1 : loadPromptContent fs ref = .ok content := by
    unfold loadPromptContent
    rw [hread]
  refine ⟨h1, ?_⟩
  unfold handleReadResource
  have hs : strStarts ("prompt://" ++ ref) "prompt://" = true := by
    unfold strStarts
    rw [data_append]
    exact leadsWith_append_self _ _
  have hrep : replaceFirstStr ("prompt://" ++ ref) "prompt://" "" = ref :=
    replaceFirstStr_strip "prompt://" ref 'p' ("rompt://").data rfl
  rw [if_pos hs, hrep, h1]

/-- Witness for C10: a parent-directory reference reaches a file outside
the prompts directory, both directly and through the resource handler. -/
theorem loadPromptContent_no_path_validation_witness :
    loadPromptContent fsEscape "../../etc/hosts" = .ok "127.0.0.1 localhost" ∧
    handleReadResource fsEscape ("prompt://" ++ "../../etc/hosts") =
      .ok "127.0.0.1 localhost" :=
  loadPromptContent_no_path_validation fsEscape "../../etc/hosts"
    "127.0.0.1 localhost" rfl
